import Mathlib

/-!
# Formal model of the email-verified chat application

A shallow embedding of the core of the `chatServer` repository
(`src/lib/utils.ts`, `src/index.tsx`): the credential hasher, the
registration / verification / login flow and the message exchange.
JavaScript strings are modelled character-wise as `List Char`; machine
arithmetic is `Nat` with explicit `% 2 ^ 32` where overflow matters;
the randomness drawn by the code (salts, tokens, identifiers) and the
outcomes of external collaborators (the email dispatcher, the clock)
are passed in explicitly as parameters.
-/

/-- JavaScript strings, modelled character-wise. -/
abbrev Str := List Char

/-- Whitespace characters recognised by `String.prototype.trim` /
leading-whitespace skipping of `parseInt` (the common ASCII set). -/
def isJsWhitespace (c : Char) : Bool :=
  c = ' ' || c = '\t' || c = '\n' || c = '\r' || c = '\x0b' || c = '\x0c'

/-- Model of `s.trim()`: drop whitespace from both ends. -/
def jsTrim (s : Str) : Str :=
  ((s.dropWhile isJsWhitespace).reverse.dropWhile isJsWhitespace).reverse

/-- Decimal digit test for `parseInt`. -/
def isDigitChar (c : Char) : Bool := '0' ≤ c && c ≤ '9'

/-- Numeric value of a list of decimal digit characters. -/
def digitsVal (ds : Str) : Nat :=
  ds.foldl (fun acc c => 10 * acc + (c.toNat - '0'.toNat)) 0

/-- A JavaScript number that may be `NaN`: `none` is `NaN`. -/
abbrev JsNum := Option Int

/-- Model of `parseInt(s)` (radix 10): skip leading whitespace, read an
optional sign and the longest prefix of decimal digits; `NaN` when that
prefix is empty. -/
def parseIntJs (s : Str) : JsNum :=
  let t := s.dropWhile isJsWhitespace
  let signedRest : Int × Str :=
    match t with
    | '-' :: r => (-1, r)
    | '+' :: r => (1, r)
    | r => (1, r)
  let ds := signedRest.2.takeWhile isDigitChar
  if ds = [] then none else some (signedRest.1 * (digitsVal ds : Int))

/-- Model of the strict comparison `x > a` of JavaScript: any comparison
with `NaN` is false. -/
def jsGtNum (x : Nat) (a : JsNum) : Bool :=
  match a with
  | none => false
  | some v => (x : Int) > v

/-- Model of `hash.split(':')`: split a character list at every colon. -/
def splitAtColon : Str → List Str
  | [] => [[]]
  | c :: cs =>
      if c = ':' then [] :: splitAtColon cs
      else
        match splitAtColon cs with
        | [] => [[c]]
        | r :: rs => (c :: r) :: rs

/-- The constant-time comparison loop of `verifyPassword`
(`src/lib/utils.ts` lines 34-43): equal lengths required, then the
bitwise-or accumulation of character-code xors must come out zero. -/
def constTimeEq (a b : Str) : Bool :=
  if a.length ≠ b.length then false
  else (a.zip b).foldl (fun r p => r ||| (p.1.toNat ^^^ p.2.toNat)) 0 == 0

/-! ## SHA-256 (the `crypto.subtle.digest('SHA-256', ·)` platform call)

The digest itself is a Web Crypto platform primitive, not code of the
repository; it is embedded here as the standard SHA-256 algorithm over
byte lists, 32-bit words being `Nat` reduced `% 2 ^ 32`. -/

/-- Truncate to a 32-bit word. -/
def m32 (x : Nat) : Nat := x % 2 ^ 32

/-- Rotate a 32-bit word right by `n`. -/
def rotr32 (n x : Nat) : Nat := m32 ((x >>> n) ||| (x <<< (32 - n)))

/-- Bitwise complement of a 32-bit word. -/
def not32 (x : Nat) : Nat := x ^^^ (2 ^ 32 - 1)

def shaCh (x y z : Nat) : Nat := (x &&& y) ^^^ (not32 x &&& z)

def shaMaj (x y z : Nat) : Nat := (x &&& y) ^^^ (x &&& z) ^^^ (y &&& z)

def bigSigma0 (x : Nat) : Nat := rotr32 2 x ^^^ rotr32 13 x ^^^ rotr32 22 x

def bigSigma1 (x : Nat) : Nat := rotr32 6 x ^^^ rotr32 11 x ^^^ rotr32 25 x

def smallSigma0 (x : Nat) : Nat := rotr32 7 x ^^^ rotr32 18 x ^^^ (x >>> 3)

def smallSigma1 (x : Nat) : Nat := rotr32 17 x ^^^ rotr32 19 x ^^^ (x >>> 10)

/-- The 64 SHA-256 round constants (decimal). -/
def shaK : List Nat :=
  [1116352408, 1899447441, 3049323471, 3921009573, 961987163,
   1508970993, 2453635748, 2870763221, 3624381080, 310598401,
   607225278, 1426881987, 1925078388, 2162078206, 2614888103,
   3248222580, 3835390401, 4022224774, 264347078, 604807628,
   770255983, 1249150122, 1555081692, 1996064986, 2554220882,
   2821834349, 2952996808, 3210313671, 3336571891, 3584528711,
   113926993, 338241895, 666307205, 773529912, 1294757372,
   1396182291, 1695183700, 1986661051, 2177026350, 2456956037,
   2730485921, 2820302411, 3259730800, 3345764771, 3516065817,
   3600352804, 4094571909, 275423344, 430227734, 506948616,
   659060556, 883997877, 958139571, 1322822218, 1537002063,
   1747873779, 1955562222, 2024104815, 2227730452, 2361852424,
   2428436474, 2756734187, 3204031479, 3329325298]

/-- Working state of the compression function: eight 32-bit words. -/
structure ShaState where
  a : Nat
  b : Nat
  c : Nat
  d : Nat
  e : Nat
  f : Nat
  g : Nat
  h : Nat
deriving DecidableEq

/-- The SHA-256 initial hash value (decimal). -/
def shaInit : ShaState :=
  ⟨1779033703, 3144134277, 1013904242, 2773480762,
   1359893119, 2600822924, 528734635, 1541459225⟩

/-- Group bytes into big-endian 32-bit words. -/
def bytesToWords : List Nat → List Nat
  | b0 :: b1 :: b2 :: b3 :: rest =>
      (b0 * 2 ^ 24 + b1 * 2 ^ 16 + b2 * 2 ^ 8 + b3) :: bytesToWords rest
  | _ => []

/-- One step of the message-schedule extension. -/
def scheduleStep (cur : List Nat) : List Nat :=
  let n := cur.length
  cur ++ [m32 (smallSigma1 (cur.getD (n - 2) 0) + cur.getD (n - 7) 0 +
               smallSigma0 (cur.getD (n - 15) 0) + cur.getD (n - 16) 0)]

/-- Extend the sixteen block words to the 64-entry message schedule. -/
def schedule (ws : List Nat) : List Nat := scheduleStep^[48] ws

/-- One compression round. -/
def shaRound (s : ShaState) (kw : Nat × Nat) : ShaState :=
  let t1 := m32 (s.h + bigSigma1 s.e + shaCh s.e s.f s.g + kw.1 + kw.2)
  let t2 := m32 (bigSigma0 s.a + shaMaj s.a s.b s.c)
  ⟨m32 (t1 + t2), s.a, s.b, s.c, m32 (s.d + t1), s.e, s.f, s.g⟩

/-- Compress one 64-byte block into the running hash state. -/
def compressBlock (h : ShaState) (block : List Nat) : ShaState :=
  let ws := schedule (bytesToWords block)
  let s := (shaK.zip ws).foldl shaRound h
  ⟨m32 (h.a + s.a), m32 (h.b + s.b), m32 (h.c + s.c), m32 (h.d + s.d),
   m32 (h.e + s.e), m32 (h.f + s.f), m32 (h.g + s.g), m32 (h.h + s.h)⟩

/-- Big-endian 8-byte encoding of the bit length. -/
def lenBytes (n : Nat) : List Nat :=
  [(n >>> 56) % 256, (n >>> 48) % 256, (n >>> 40) % 256, (n >>> 32) % 256,
   (n >>> 24) % 256, (n >>> 16) % 256, (n >>> 8) % 256, n % 256]

/-- SHA-256 padding: a `0x80` byte, zeros to 56 mod 64, then the
64-bit message bit length. -/
def shaPad (msg : List Nat) : List Nat :=
  let l := msg.length
  let k := (64 + 56 - (l + 1) % 64) % 64
  msg ++ [0x80] ++ List.replicate k 0 ++ lenBytes (8 * l)

/-- Split a byte list into 64-byte chunks. -/
def chunks64 (l : List Nat) : List (List Nat) :=
  if h : l = [] then []
  else l.take 64 :: chunks64 (l.drop 64)
termination_by l.length
decreasing_by
  simp only [List.length_drop]
  have : 0 < l.length := List.length_pos.mpr h
  omega

/-- Big-endian bytes of a 32-bit word. -/
def wordBytes (w : Nat) : List Nat :=
  [(w >>> 24) % 256, (w >>> 16) % 256, (w >>> 8) % 256, w % 256]

/-- SHA-256 of a byte list, as the list of the 32 digest bytes. -/
def sha256 (msg : List Nat) : List Nat :=
  let fin := (chunks64 (shaPad msg)).foldl compressBlock shaInit
  [fin.a, fin.b, fin.c, fin.d, fin.e, fin.f, fin.g, fin.h].flatMap wordBytes

/-- UTF-8 bytes of one character (the `TextEncoder` platform call). -/
def utf8Char (c : Char) : List Nat :=
  let n := c.toNat
  if n < 0x80 then [n]
  else if n < 0x800 then [0xC0 ||| (n >>> 6), 0x80 ||| (n &&& 0x3F)]
  else if n < 0x10000 then
    [0xE0 ||| (n >>> 12), 0x80 ||| ((n >>> 6) &&& 0x3F), 0x80 ||| (n &&& 0x3F)]
  else
    [0xF0 ||| (n >>> 18), 0x80 ||| ((n >>> 12) &&& 0x3F),
     0x80 ||| ((n >>> 6) &&& 0x3F), 0x80 ||| (n &&& 0x3F)]

/-- Model of `new TextEncoder().encode(s)`. -/
def utf8Encode (s : Str) : List Nat := s.flatMap utf8Char

/-- The sixteen lowercase hexadecimal digits. -/
def hexChars : Str := "0123456789abcdef".data

/-- One hexadecimal digit character. -/
def hexDigit (n : Nat) : Char := hexChars.getD n '0'

/-- Model of `b.toString(16).padStart(2, '0')` for a byte. -/
def byteHex (b : Nat) : Str := [hexDigit (b / 16 % 16), hexDigit (b % 16)]

/-- Hex encoding of a byte list (the `hashArray.map(...).join('')` of
`src/lib/utils.ts`). -/
def toHex (bs : List Nat) : Str := bs.flatMap byteHex

/-! ## The credential hasher (`src/lib/utils.ts`) -/

/-- The 62-character alphanumeric alphabet of `generateToken`
(`const chars` in `src/lib/utils.ts`). -/
def tokenChars : Str :=
  "ABCDEFGHIJKLMNOPQRSTUVWXYZabcdefghijklmnopqrstuvwxyz0123456789".data

/-- Model of `generateToken`: the secure random bytes drawn by
`crypto.getRandomValues` are passed in explicitly; each byte is mapped
into the 62-character alphabet by modulo. -/
def generateToken (randomBytes : List Nat) : Str :=
  randomBytes.map (fun b => tokenChars.getD (b % 62) 'A')

/-- The salted digest `SHA-256(salt || password)` in hex. -/
def saltedHashHex (salt password : Str) : Str :=
  toHex (sha256 (utf8Encode (salt ++ password)))

/-- Model of `hashPassword`: draws a 16-character salt from the random
bytes `rv` and returns `salt ++ ":" ++ hex(SHA-256(salt || password))`.
(The unsalted digest the source computes first is dead code: it is
never returned.) -/
def hashPassword (rv : List Nat) (password : Str) : Str :=
  let salt := generateToken rv
  salt ++ [':'] ++ saltedHashHex salt password

/-- Model of `verifyPassword`: split the stored representation at the
colon, recompute the salted digest of the candidate and compare in
constant time. Malformed digests (missing or empty parts) yield
`false`. -/
def verifyPassword (hash password : Str) : Bool :=
  match splitAtColon hash with
  | salt :: storedHash :: _ =>
      if salt = [] || storedHash = [] then false
      else constTimeEq (saltedHashHex salt password) storedHash
  | _ => false

/-! ## Data model (the D1 tables of `migrations/0001_initial_schema.sql`) -/

/-- A row of the `users` table. -/
structure User where
  id : String
  email : String
  password_hash : Str
  verified : Bool
  created_at : Nat
deriving DecidableEq

/-- A row of the `email_verification_tokens` table. -/
structure VToken where
  token : String
  user_id : String
  expires_at : Nat
deriving DecidableEq

/-- A row of the `sessions` table. -/
structure Session where
  id : String
  user_id : String
  expires_at : Nat
deriving DecidableEq

/-- A row of the `messages` table; `id` is the AUTOINCREMENT key. -/
structure Msg where
  id : Nat
  user_id : String
  message : Str
  created_at : Nat
deriving DecidableEq

/-- The persistence store: the four tables plus the next AUTOINCREMENT
message id. -/
structure Store where
  users : List User
  tokens : List VToken
  sessions : List Session
  messages : List Msg
  nextMsgId : Nat
deriving DecidableEq

/-- A JSON API response: the `ok` flag, the HTTP status, and the `error`
or `message` text. -/
structure ApiResp where
  ok : Bool
  status : Nat
  text : String
deriving DecidableEq

/-! ## Session manager (Lucia, an external library) -/

/-- Modelled from the spec: Lucia's `createSession` (§4.3 Session
Manager), a library call whose code is not in `src/`: persist a new
session row expiring a fixed TTL from now; the generated opaque session
id is passed in explicitly. -/
def createSession (sid userId : String) (now ttl : Nat) (st : Store) : Store :=
  { st with sessions := st.sessions ++ [⟨sid, userId, now + ttl⟩] }

/-- Modelled from the spec: Lucia's `validateSession` (§4.3 Session
Manager), a library call whose code is not in `src/`: look up the
session by id; absent or expired is invalid (expired sessions are
deleted as a side effect); otherwise join to the owning user. -/
def validateSession (now : Nat) (sid : String) (st : Store) : Option User × Store :=
  match st.sessions.find? (fun s => s.id = sid) with
  | none => (none, st)
  | some s =>
      if s.expires_at ≤ now then
        (none, { st with sessions := st.sessions.filter (fun t => t.id ≠ sid) })
      else
        match st.users.find? (fun u => u.id = s.user_id) with
        | none => (none, st)
        | some u => (some u, st)

/-- Modelled from the spec: Lucia's `invalidateSession` (§4.3 Session
Manager): delete the session row if present; idempotent. -/
def invalidateSession (sid : String) (st : Store) : Store :=
  { st with sessions := st.sessions.filter (fun s => s.id ≠ sid) }

/-! ## The registration / verification / login / logout flow
(`src/index.tsx`) -/

/-- The environment and randomness a `POST /api/register` call draws:
the clock, the generated user id, the salt bytes for `hashPassword`,
the generated verification token, whether `RESEND_API_KEY` is
configured, and the email dispatcher's outcome. -/
structure RegCfg where
  now : Nat
  userId : String
  saltBytes : List Nat
  token : String
  apiKeyPresent : Bool
  emailOk : Bool
  emailErr : String
deriving DecidableEq

/-- The `POST /api/register` handler (`src/index.tsx` lines 23-92). -/
def register (cfg : RegCfg) (email : String) (password : Str) (st : Store) :
    ApiResp × Store :=
  if email = "" ∨ password = [] then
    (⟨false, 400, "Email and password are required"⟩, st)
  else if password.length < 8 then
    (⟨false, 400, "Password must be at least 8 characters"⟩, st)
  else
    match st.users.find? (fun u => u.email = email) with
    | some _ => (⟨false, 400, "Email already registered"⟩, st)
    | none =>
        let user : User :=
          ⟨cfg.userId, email, hashPassword cfg.saltBytes password, false, cfg.now⟩
        let st1 := { st with users := st.users ++ [user] }
        let tok : VToken := ⟨cfg.token, cfg.userId, cfg.now + 60 * 60 * 1000⟩
        let st2 := { st1 with tokens := st1.tokens ++ [tok] }
        if ¬ cfg.apiKeyPresent then
          (⟨false, 500, "Email service is not configured"⟩, st2)
        else if ¬ cfg.emailOk then
          (⟨false, 500, cfg.emailErr⟩, st2)
        else
          (⟨true, 200, "Check your email for verification link"⟩, st2)

/-- Outcome of the `GET /verify` handler: the three rendered error pages
and the success redirect. -/
inductive VerifyResult where
  | invalidLink
  | invalidToken
  | expired
  | success (location : String)
deriving DecidableEq

/-- The `GET /verify` handler (`src/index.tsx` lines 95-148): the
generated session id and the session TTL are passed in explicitly. -/
def verifyEmail (now : Nat) (sid : String) (ttl : Nat) (tokenParam : Option String)
    (st : Store) : VerifyResult × Store :=
  match tokenParam with
  | none => (.invalidLink, st)
  | some t =>
      if t = "" then (.invalidLink, st)
      else
        match st.tokens.find? (fun v => v.token = t) with
        | none => (.invalidToken, st)
        | some td =>
            if td.expires_at < now then
              (.expired, { st with tokens := st.tokens.filter (fun v => v.token ≠ t) })
            else
              let us := st.users.map
                (fun u => if u.id = td.user_id then { u with verified := true } else u)
              let st1 := { st with users := us }
              let st2 := { st1 with tokens := st1.tokens.filter (fun v => v.token ≠ t) }
              (.success "/chat", createSession sid td.user_id now ttl st2)

/-- The `POST /api/login` handler (`src/index.tsx` lines 151-194),
parametrised over the password-verification function it calls, so that
independence from it can be stated. -/
def loginWith (pv : Str → Str → Bool) (sid : String) (now ttl : Nat)
    (email : String) (password : Str) (st : Store) : ApiResp × Store :=
  if email = "" ∨ password = [] then
    (⟨false, 400, "Email and password are required"⟩, st)
  else
    match st.users.find? (fun u => u.email = email) with
    | none => (⟨false, 401, "Invalid email or password"⟩, st)
    | some u =>
        if ¬ u.verified then
          (⟨false, 401, "Please verify your email first"⟩, st)
        else if ¬ pv u.password_hash password then
          (⟨false, 401, "Invalid email or password"⟩, st)
        else
          (⟨true, 200, "Login successful"⟩, createSession sid u.id now ttl st)

/-- The `POST /api/login` handler with the real `verifyPassword`. -/
def login (sid : String) (now ttl : Nat) (email : String) (password : Str)
    (st : Store) : ApiResp × Store :=
  loginWith verifyPassword sid now ttl email password st

/-- The `POST /api/logout` handler (`src/index.tsx` lines 197-215). -/
def logout (cookieSid : Option String) (st : Store) : ApiResp × Store :=
  let st1 :=
    match cookieSid with
    | none => st
    | some sid => if sid = "" then st else invalidateSession sid st
  (⟨true, 200, "Logout successful"⟩, st1)

/-! ## Message exchange (`src/index.tsx`) -/

/-- The `POST /api/messages` handler (`src/index.tsx` lines 249-287). -/
def postMessage (now : Nat) (cookieSid : Option String) (body : Option Str)
    (st : Store) : ApiResp × Store :=
  match cookieSid with
  | none => (⟨false, 401, "Not authenticated"⟩, st)
  | some sid =>
      if sid = "" then (⟨false, 401, "Not authenticated"⟩, st)
      else
        match validateSession now sid st with
        | (none, st1) => (⟨false, 401, "Invalid session"⟩, st1)
        | (some u, st1) =>
            match body with
            | none => (⟨false, 400, "Message cannot be empty"⟩, st1)
            | some message =>
                if message = [] ∨ jsTrim message = [] then
                  (⟨false, 400, "Message cannot be empty"⟩, st1)
                else if message.length > 1000 then
                  (⟨false, 400, "Message is too long (max 1000 characters)"⟩, st1)
                else
                  (⟨true, 200, "Message posted"⟩,
                   { st1 with
                     messages := st1.messages ++ [⟨st1.nextMsgId, u.id, jsTrim message, now⟩],
                     nextMsgId := st1.nextMsgId + 1 })

/-- One row of a `GET /api/messages` response. -/
structure MsgOut where
  id : Nat
  message : Str
  email : String
  createdAt : Nat
deriving DecidableEq

/-- A `GET /api/messages` response. -/
structure MsgsResp where
  ok : Bool
  messages : List MsgOut
deriving DecidableEq

/-- The `JOIN users u ON m.user_id = u.id` of the messages query: each
message paired with its author row; messages with no matching user are
dropped (inner join). -/
def joinedRows (st : Store) : List (Msg × User) :=
  st.messages.filterMap
    (fun m => (st.users.find? (fun u => u.id = m.user_id)).map (fun u => (m, u)))

/-- The `ORDER BY m.created_at ASC` comparison. -/
def msgRowLe (a b : Msg × User) : Prop := a.1.created_at ≤ b.1.created_at

instance : DecidableRel msgRowLe := fun a b => Nat.decLe a.1.created_at b.1.created_at

instance : IsTotal (Msg × User) msgRowLe := ⟨fun a b => Nat.le_total a.1.created_at b.1.created_at⟩

instance : IsTrans (Msg × User) msgRowLe := ⟨fun _ _ _ => Nat.le_trans⟩

/-- The messages query (`src/index.tsx` lines 296-306): filter on
`created_at > after` (JavaScript comparison, so false against `NaN`),
sort ascending by `created_at`, cap at 100 rows, shape the output. -/
def listAfter (st : Store) (after : JsNum) : List MsgOut :=
  (((List.insertionSort msgRowLe
       ((joinedRows st).filter (fun p => jsGtNum p.1.created_at after))).take 100).map
    (fun p => ⟨p.1.id, p.1.message, p.2.email, p.1.created_at⟩))

/-- The `GET /api/messages` handler (`src/index.tsx` lines 290-321):
`after` absent or empty defaults to `0` via JavaScript truthiness,
otherwise it is fed to `parseInt`. -/
def getMessages (st : Store) (afterParam : Option Str) : MsgsResp :=
  let afterTimestamp : JsNum :=
    match afterParam with
    | none => some 0
    | some s => if s = [] then some 0 else parseIntJs s
  ⟨true, listAfter st afterTimestamp⟩

/-! ## Lemmas about the credential hasher -/

/-- A bitwise or of naturals is zero exactly when both sides are. -/
theorem nat_or_eq_zero (a b : Nat) : a ||| b = 0 ↔ a = 0 ∧ b = 0 := by
  constructor
  · intro h
    have ha : a = 0 := Nat.zero_of_testBit_eq_false (fun i => by
      have := congrArg (fun n => Nat.testBit n i) h
      simp only [Nat.testBit_or, Nat.zero_testBit, Bool.or_eq_false_iff] at this
      exact this.1)
    have hb : b = 0 := Nat.zero_of_testBit_eq_false (fun i => by
      have := congrArg (fun n => Nat.testBit n i) h
      simp only [Nat.testBit_or, Nat.zero_testBit, Bool.or_eq_false_iff] at this
      exact this.2)
    exact ⟨ha, hb⟩
  · rintro ⟨rfl, rfl⟩; rfl

/-- The xor-accumulating fold of `constTimeEq` is zero exactly when the
accumulator is zero and every zipped pair has equal character codes. -/
theorem foldl_or_eq_zero_iff (l : List (Char × Char)) (r : Nat) :
    (l.foldl (fun s p => s ||| (p.1.toNat ^^^ p.2.toNat)) r = 0) ↔
      (r = 0 ∧ ∀ p ∈ l, p.1.toNat ^^^ p.2.toNat = 0) := by
  induction l generalizing r with
  | nil => simp
  | cons q qs ih =>
      rw [List.foldl_cons, ih, nat_or_eq_zero]
      constructor
      · rintro ⟨⟨h1, h2⟩, h3⟩
        exact ⟨h1, by
          intro p hp
          rcases List.mem_cons.mp hp with h | h
          · exact h ▸ h2
          · exact h3 p h⟩
      · rintro ⟨h1, h2⟩
        exact ⟨⟨h1, h2 q (List.mem_cons_self q qs)⟩,
               fun p hp => h2 p (List.mem_cons_of_mem q hp)⟩

/-- Pairs drawn from zipping a list with itself are diagonal. -/
theorem zip_self_diag (a : Str) : ∀ p ∈ a.zip a, p.1 = p.2 := by
  induction a with
  | nil => intro p hp; simp at hp
  | cons c cs ih =>
      intro p hp
      rw [List.zip_cons_cons, List.mem_cons] at hp
      rcases hp with h | h
      · rw [h]
      · exact ih p h

/-- `constTimeEq` accepts a string against itself. -/
theorem constTimeEq_self (a : Str) : constTimeEq a a = true := by
  unfold constTimeEq
  rw [if_neg (by simp)]
  rw [beq_iff_eq, foldl_or_eq_zero_iff]
  exact ⟨rfl, fun p hp => by rw [zip_self_diag a p hp, Nat.xor_self]⟩

/-- Lists agreeing pairwise under `zip` and in length are equal. -/
theorem eq_of_zip_eq (a : Str) : ∀ b : Str, a.length = b.length →
    (∀ p ∈ a.zip b, p.1 = p.2) → a = b := by
  induction a with
  | nil =>
      intro b hlen _
      cases b with
      | nil => rfl
      | cons d ds => simp at hlen
  | cons c cs ih =>
      intro b hlen h
      cases b with
      | nil => simp at hlen
      | cons d ds =>
          rw [List.zip_cons_cons] at h
          have hcd : c = d := h (c, d) (List.mem_cons_self _ _)
          have hrest : cs = ds := by
            refine ih ds (by simpa using hlen) (fun p hp => h p ?_)
            exact List.mem_cons_of_mem _ hp
          rw [hcd, hrest]

/-- `constTimeEq` is complete: acceptance implies equality. -/
theorem eq_of_constTimeEq (a b : Str) (h : constTimeEq a b = true) : a = b := by
  unfold constTimeEq at h
  by_cases hlen : a.length = b.length
  · rw [if_neg (by simpa using hlen), beq_iff_eq, foldl_or_eq_zero_iff] at h
    refine eq_of_zip_eq a b hlen (fun p hp => ?_)
    have hx := h.2 p hp
    have := Nat.xor_eq_zero.mp hx
    calc p.1 = Char.ofNat p.1.toNat := (Char.ofNat_toNat p.1).symm
    _ = Char.ofNat p.2.toNat := by rw [this]
    _ = p.2 := Char.ofNat_toNat p.2
  · rw [if_pos (by simpa using hlen)] at h
    exact absurd h (by simp)

/-- `splitAtColon` of a colon-free list is that single part. -/
theorem splitAtColon_no_colon (b : Str) (h : ':' ∉ b) : splitAtColon b = [b] := by
  induction b with
  | nil => rfl
  | cons c cs ih =>
      have hc : ¬ (c = ':') := fun e => h (e ▸ List.mem_cons_self c cs)
      have hcs : splitAtColon cs = [cs] := ih (fun m => h (List.mem_cons_of_mem c m))
      simp [splitAtColon, hc, hcs]

/-- `splitAtColon` recovers the part before the first colon. -/
theorem splitAtColon_append (a b : Str) (h : ':' ∉ a) :
    splitAtColon (a ++ ':' :: b) = a :: splitAtColon b := by
  induction a with
  | nil => simp [splitAtColon]
  | cons c cs ih =>
      have hc : ¬ (c = ':') := fun e => h (e ▸ List.mem_cons_self c cs)
      have hcs := ih (fun m => h (List.mem_cons_of_mem c m))
      simp [splitAtColon, hc, hcs]

/-- `getD` stays inside the list when the default is a member. -/
theorem getD_mem_of_default_mem {l : Str} {d : Char} (hd : d ∈ l) (n : Nat) :
    l.getD n d ∈ l := by
  by_cases h : n < l.length
  · rw [List.getD_eq_getElem _ _ h]
    exact List.getElem_mem h
  · rw [List.getD_eq_default _ _ (Nat.le_of_not_lt h)]
    exact hd

/-- Hex encodings never contain a colon. -/
theorem toHex_no_colon (bs : List Nat) : ':' ∉ toHex bs := by
  intro h
  rw [toHex, List.mem_flatMap] at h
  obtain ⟨b, _, hb⟩ := h
  have hmem : ∀ n : Nat, hexDigit n ∈ hexChars :=
    fun n => getD_mem_of_default_mem (by decide) n
  rw [byteHex, List.mem_cons, List.mem_cons] at hb
  rcases hb with h1 | h1 | h1
  · exact absurd (h1 ▸ hmem (b / 16 % 16)) (by decide)
  · exact absurd (h1 ▸ hmem (b % 16)) (by decide)
  · simp at h1

/-- The digest has 32 bytes. -/
theorem sha256_length (m : List Nat) : (sha256 m).length = 32 := rfl

/-- Every digest byte is below 256. -/
theorem sha256_lt (m : List Nat) : ∀ b ∈ sha256 m, b < 256 := by
  intro b hb
  simp only [sha256, wordBytes, List.flatMap_cons, List.flatMap_nil,
    List.append_nil, List.mem_append, List.mem_cons, List.not_mem_nil,
    or_false] at hb
  rcases hb with h | h | h | h | h | h | h | h <;>
    rcases h with h | h | h | h <;>
    · rw [h]; exact Nat.mod_lt _ (by omega)

/-- The hex digest of a SHA-256 output is nonempty. -/
theorem toHex_sha_ne_nil (m : List Nat) : toHex (sha256 m) ≠ [] := by
  have hlen : (sha256 m).length = 32 := sha256_length m
  cases h : sha256 m with
  | nil => rw [h] at hlen; simp at hlen
  | cons b bs => simp [toHex, byteHex]

/-- Tokens drawn by `generateToken` never contain a colon. -/
theorem generateToken_no_colon (rv : List Nat) : ':' ∉ generateToken rv := by
  intro h
  rw [generateToken, List.mem_map] at h
  obtain ⟨b, _, hb⟩ := h
  have : tokenChars.getD (b % 62) 'A' ∈ tokenChars :=
    getD_mem_of_default_mem (by decide) (b % 62)
  exact absurd (hb ▸ this) (by decide)

/-- `generateToken` draws exactly one character per random byte. -/
theorem generateToken_length (rv : List Nat) :
    (generateToken rv).length = rv.length := by
  rw [generateToken, List.length_map]

/-- Acceptance of `verifyPassword` against a drawn hash, given equality
of the salted digests. -/
theorem verifyPassword_true_of_hex_eq (rv : List Nat) (p p' : Str) (hrv : rv ≠ [])
    (hhex : saltedHashHex (generateToken rv) p' = saltedHashHex (generateToken rv) p) :
    verifyPassword (hashPassword rv p) p' = true := by
  have hsalt : generateToken rv ≠ [] := by
    intro h
    have := generateToken_length rv
    rw [h] at this
    exact hrv (List.length_eq_zero.mp this.symm)
  have hsc : ':' ∉ generateToken rv := generateToken_no_colon rv
  have hhex_ne : saltedHashHex (generateToken rv) p ≠ [] := toHex_sha_ne_nil _
  have hhc : ':' ∉ saltedHashHex (generateToken rv) p := toHex_no_colon _
  have hsplit : splitAtColon (hashPassword rv p) =
      [generateToken rv, saltedHashHex (generateToken rv) p] := by
    rw [hashPassword]
    rw [List.append_assoc, List.singleton_append]
    rw [splitAtColon_append _ _ hsc, splitAtColon_no_colon _ hhc]
  rw [verifyPassword, hsplit]
  simp only [hsalt, hhex_ne, Bool.or_self, if_false]
  rw [hhex]
  simp [hsalt, hhex_ne, constTimeEq_self]

/-- Rejection of `verifyPassword` against a drawn hash, given that the
salted digests differ. -/
theorem verifyPassword_false_of_hex_ne (rv : List Nat) (p p' : Str) (hrv : rv ≠ [])
    (hhex : saltedHashHex (generateToken rv) p' ≠ saltedHashHex (generateToken rv) p) :
    verifyPassword (hashPassword rv p) p' = false := by
  have hsalt : generateToken rv ≠ [] := by
    intro h
    have := generateToken_length rv
    rw [h] at this
    exact hrv (List.length_eq_zero.mp this.symm)
  have hsc : ':' ∉ generateToken rv := generateToken_no_colon rv
  have hhex_ne : saltedHashHex (generateToken rv) p ≠ [] := toHex_sha_ne_nil _
  have hhc : ':' ∉ saltedHashHex (generateToken rv) p := toHex_no_colon _
  have hsplit : splitAtColon (hashPassword rv p) =
      [generateToken rv, saltedHashHex (generateToken rv) p] := by
    rw [hashPassword]
    rw [List.append_assoc, List.singleton_append]
    rw [splitAtColon_append _ _ hsc, splitAtColon_no_colon _ hhc]
  rw [verifyPassword, hsplit]
  simp only [hsalt, hhex_ne, Bool.or_self, if_false]
  cases hct : constTimeEq (saltedHashHex (generateToken rv) p')
      (saltedHashHex (generateToken rv) p) with
  | false => simp [hsalt, hhex_ne, hct]
  | true => exact absurd (eq_of_constTimeEq _ _ hct) hhex

/-- Passwords are infinitely many while 32-byte digests are finitely
many, so the salted-digest map collides for the salt drawn from sixteen
zero random bytes (nonconstructively, by counting). -/
theorem sha_collision_exists :
    ∃ x y : Str, x ≠ y ∧
      saltedHashHex (generateToken (List.replicate 16 0)) x =
        saltedHashHex (generateToken (List.replicate 16 0)) y := by
  obtain ⟨x, y, hxy, hf⟩ := Finite.exists_ne_map_eq_of_infinite
    (fun (p : Str) => fun (i : Fin 32) =>
      (⟨(sha256 (utf8Encode (generateToken (List.replicate 16 0) ++ p))).getD i.val 0 % 256,
        Nat.mod_lt _ (by omega)⟩ : Fin 256))
  refine ⟨x, y, hxy, ?_⟩
  have hsha : sha256 (utf8Encode (generateToken (List.replicate 16 0) ++ x)) =
      sha256 (utf8Encode (generateToken (List.replicate 16 0) ++ y)) := by
    apply List.ext_getElem (by rw [sha256_length, sha256_length])
    intro n h1 h2
    have hn : n < 32 := by rw [sha256_length] at h1; exact h1
    have hfn := congrArg Fin.val (congrFun hf ⟨n, hn⟩)
    simp only at hfn
    have e1 := List.getD_eq_getElem
      (sha256 (utf8Encode (generateToken (List.replicate 16 0) ++ x))) 0 h1
    have e2 := List.getD_eq_getElem
      (sha256 (utf8Encode (generateToken (List.replicate 16 0) ++ y))) 0 h2
    have b1 := sha256_lt (utf8Encode (generateToken (List.replicate 16 0) ++ x)) _
      (List.getElem_mem h1)
    have b2 := sha256_lt (utf8Encode (generateToken (List.replicate 16 0) ++ y)) _
      (List.getElem_mem h2)
    rw [e1, e2, Nat.mod_eq_of_lt b1, Nat.mod_eq_of_lt b2] at hfn
    exact hfn
  rw [saltedHashHex, saltedHashHex, hsha]

/-- C1: as literally stated — `verifyPassword(hashPassword(p), p') = false`
for every `p' ≠ p` — the claim is false: by counting, some two distinct
passwords share a salted SHA-256 digest, and `verifyPassword` then accepts
the wrong password. Refuted at the concrete salt drawn from sixteen zero
random bytes. -/
theorem claim1_counterexample :
    ¬ (∀ p p' : Str, p' ≠ p →
        verifyPassword (hashPassword (List.replicate 16 0) p) p' = false) := by
  intro hall
  obtain ⟨x, y, hxy, hhex⟩ := sha_collision_exists
  have htrue := verifyPassword_true_of_hex_eq (List.replicate 16 0) y x (by decide) hhex
  have hfalse := hall y x hxy
  rw [htrue] at hfalse
  exact Bool.noConfusion hfalse

/-- C1 (amended): for any nonempty draw of salt random bytes,
`verifyPassword (hashPassword rv p) p = true`; and
`verifyPassword (hashPassword rv p) p' = false` for every `p'` whose
salted digest differs from that of `p` (i.e. unless SHA-256 collides on
`salt ‖ p'` and `salt ‖ p`). -/
theorem claim1_roundtrip (rv : List Nat) (p p' : Str) (hrv : rv ≠ []) :
    verifyPassword (hashPassword rv p) p = true ∧
    (saltedHashHex (generateToken rv) p' ≠ saltedHashHex (generateToken rv) p →
      verifyPassword (hashPassword rv p) p' = false) :=
  ⟨verifyPassword_true_of_hex_eq rv p p hrv rfl,
   fun h => verifyPassword_false_of_hex_ne rv p p' hrv h⟩

/-- Witness for C1 at the single random byte `0` and passwords `"a"`,
`"b"`. -/
theorem claim1_witness :
    ([0] : List Nat) ≠ [] ∧
    (verifyPassword (hashPassword [0] ['a']) ['a'] = true ∧
     (saltedHashHex (generateToken [0]) ['b'] ≠ saltedHashHex (generateToken [0]) ['a'] →
       verifyPassword (hashPassword [0] ['a']) ['b'] = false)) :=
  ⟨by decide, claim1_roundtrip [0] ['a'] ['b'] (by decide)⟩

/-! ## Lemmas about the verification flow -/

/-- The success path of `GET /verify`, with the resulting store spelled
out. -/
theorem verifyEmail_success_state (now ttl : Nat) (sid t : String) (st : Store)
    (td : VToken) (ht : t ≠ "")
    (hf : st.tokens.find? (fun v => v.token = t) = some td)
    (hle : ¬ td.expires_at < now) :
    verifyEmail now sid ttl (some t) st =
      (.success "/chat",
       { users := st.users.map
           (fun u => if u.id = td.user_id then { u with verified := true } else u),
         tokens := st.tokens.filter (fun v => v.token ≠ t),
         sessions := st.sessions ++ [⟨sid, td.user_id, now + ttl⟩],
         messages := st.messages,
         nextMsgId := st.nextMsgId }) := by
  simp [verifyEmail, ht, hf, hle, createSession]

/-- The absent-token path of `GET /verify`. -/
theorem verifyEmail_absent (now ttl : Nat) (sid t : String) (st : Store)
    (ht : t ≠ "")
    (hf : st.tokens.find? (fun v => v.token = t) = none) :
    verifyEmail now sid ttl (some t) st = (.invalidToken, st) := by
  simp [verifyEmail, ht, hf]

/-- The expired-token path of `GET /verify`. -/
theorem verifyEmail_expired_state (now ttl : Nat) (sid t : String) (st : Store)
    (td : VToken) (ht : t ≠ "")
    (hf : st.tokens.find? (fun v => v.token = t) = some td)
    (hexp : td.expires_at < now) :
    verifyEmail now sid ttl (some t) st =
      (.expired, { st with tokens := st.tokens.filter (fun v => v.token ≠ t) }) := by
  simp [verifyEmail, ht, hf, hexp]

/-- Deleting a token by key makes the keyed lookup fail. -/
theorem find?_filter_token_none (l : List VToken) (t : String) :
    (l.filter (fun v => v.token ≠ t)).find? (fun v => v.token = t) = none := by
  rw [List.find?_eq_none]
  intro x hx
  have := (List.mem_filter.mp hx).2
  simpa using this

/-- C2 (amended): a verification token is accepted exactly when it exists
and `now ≤ expires_at` (the code's boundary: a token is still accepted at
the exact expiry instant); a successful `VerifyEmail` deletes the token,
so a second call with the same token reports `InvalidToken`; an absent
token reports `InvalidToken` with no state change; an expired token is
deleted on detection and reported `ExpiredToken` with the users table
unchanged. -/
theorem claim2_amended (now now2 ttl ttl2 : Nat) (sid sid2 : String) (t : String)
    (st : Store) (ht : t ≠ "") :
    (((verifyEmail now sid ttl (some t) st).1 = .success "/chat") ↔
      (∃ td, st.tokens.find? (fun v => v.token = t) = some td ∧
        now ≤ td.expires_at)) ∧
    (∀ td, st.tokens.find? (fun v => v.token = t) = some td →
      now ≤ td.expires_at →
      (verifyEmail now2 sid2 ttl2 (some t)
          (verifyEmail now sid ttl (some t) st).2).1 = .invalidToken) ∧
    (st.tokens.find? (fun v => v.token = t) = none →
      verifyEmail now sid ttl (some t) st = (.invalidToken, st)) ∧
    (∀ td, st.tokens.find? (fun v => v.token = t) = some td →
      td.expires_at < now →
      (verifyEmail now sid ttl (some t) st).1 = .expired ∧
      (verifyEmail now sid ttl (some t) st).2.users = st.users ∧
      (verifyEmail now sid ttl (some t) st).2.tokens.find?
        (fun v => v.token = t) = none) := by
  refine ⟨?_, ?_, ?_, ?_⟩
  · cases hf : st.tokens.find? (fun v => v.token = t) with
    | none =>
        rw [verifyEmail_absent now ttl sid t st ht hf]
        simp
    | some td =>
        by_cases hexp : td.expires_at < now
        · rw [verifyEmail_expired_state now ttl sid t st td ht hf hexp]
          constructor
          · intro h; simp at h
          · rintro ⟨td', htd', hle⟩
            rw [Option.some.injEq] at htd'
            subst htd'
            exfalso
            omega
        · rw [verifyEmail_success_state now ttl sid t st td ht hf hexp]
          exact ⟨fun _ => ⟨td, rfl, by omega⟩, fun _ => rfl⟩
  · intro td hf hle
    rw [verifyEmail_success_state now ttl sid t st td ht hf (by omega)]
    rw [verifyEmail_absent now2 ttl2 sid2 t _ ht (find?_filter_token_none st.tokens t)]
  · intro hf
    exact verifyEmail_absent now ttl sid t st ht hf
  · intro td hf hexp
    rw [verifyEmail_expired_state now ttl sid t st td ht hf hexp]
    exact ⟨rfl, rfl, find?_filter_token_none st.tokens t⟩

/-- C2: the claim's boundary `now < expires_at` is refuted: at
`now = expires_at = 5` the token exists, `now < expires_at` fails, yet
the code accepts and verifies. -/
theorem claim2_counterexample :
    (verifyEmail 5 "s" 100 (some "tok")
        ⟨[⟨"u1", "a@x.com", [], false, 0⟩], [⟨"tok", "u1", 5⟩], [], [], 1⟩).1 =
      .success "/chat" ∧
    ((⟨[⟨"u1", "a@x.com", [], false, 0⟩], [⟨"tok", "u1", 5⟩], [], [], 1⟩ :
        Store).tokens.find? (fun v => v.token = "tok")).isSome = true ∧
    ¬ (5 < 5) := by
  refine ⟨by decide, by decide, by omega⟩

/-- Witness for C2: on a store holding an unexpired token, the second
call with the consumed token reports `InvalidToken`. -/
theorem claim2_witness :
    ("tok" : String) ≠ "" ∧
    (verifyEmail 9 "s2" 50 (some "tok")
        (verifyEmail 7 "s" 100 (some "tok")
          ⟨[⟨"u1", "a@x.com", [], false, 0⟩], [⟨"tok", "u1", 10⟩], [], [], 1⟩).2).1 =
      .invalidToken :=
  ⟨by decide,
   (claim2_amended 7 9 100 50 "s" "s2" "tok"
      ⟨[⟨"u1", "a@x.com", [], false, 0⟩], [⟨"tok", "u1", 10⟩], [], [], 1⟩
      (by decide)).2.1 ⟨"tok", "u1", 10⟩ (by decide) (by decide)⟩

/-! ## Lemmas about login and registration -/

/-- Login path: unknown email. -/
theorem loginWith_no_user (pv : Str → Str → Bool) (sid : String) (now ttl : Nat)
    (email : String) (password : Str) (st : Store) (he : email ≠ "")
    (hp : password ≠ [])
    (hf : st.users.find? (fun v => v.email = email) = none) :
    loginWith pv sid now ttl email password st =
      (⟨false, 401, "Invalid email or password"⟩, st) := by
  simp [loginWith, he, hp, hf]

/-- Login path: unverified user, any password. -/
theorem loginWith_unverified (pv : Str → Str → Bool) (sid : String) (now ttl : Nat)
    (email : String) (password : Str) (st : Store) (u : User) (he : email ≠ "")
    (hp : password ≠ [])
    (hf : st.users.find? (fun v => v.email = email) = some u)
    (hv : u.verified = false) :
    loginWith pv sid now ttl email password st =
      (⟨false, 401, "Please verify your email first"⟩, st) := by
  simp [loginWith, he, hp, hf, hv]

/-- Login path: verified user, rejected password. -/
theorem loginWith_badpw (pv : Str → Str → Bool) (sid : String) (now ttl : Nat)
    (email : String) (password : Str) (st : Store) (u : User) (he : email ≠ "")
    (hp : password ≠ [])
    (hf : st.users.find? (fun v => v.email = email) = some u)
    (hv : u.verified = true) (hpw : pv u.password_hash password = false) :
    loginWith pv sid now ttl email password st =
      (⟨false, 401, "Invalid email or password"⟩, st) := by
  simp [loginWith, he, hp, hf, hv, hpw]

/-- Login path: verified user, accepted password. -/
theorem loginWith_success (pv : Str → Str → Bool) (sid : String) (now ttl : Nat)
    (email : String) (password : Str) (st : Store) (u : User) (he : email ≠ "")
    (hp : password ≠ [])
    (hf : st.users.find? (fun v => v.email = email) = some u)
    (hv : u.verified = true) (hpw : pv u.password_hash password = true) :
    loginWith pv sid now ttl email password st =
      (⟨true, 200, "Login successful"⟩, createSession sid u.id now ttl st) := by
  simp [loginWith, he, hp, hf, hv, hpw]

/-- C5: for requests that pass the field check, login answers
"Please verify your email first" exactly when the email belongs to an
existing unverified user, and answers the one generic
"Invalid email or password" both for an unknown email and for a wrong
password against a verified user, with literally identical responses in
those two cases. -/
theorem claim5_login_errors (sid : String) (now ttl : Nat) (email : String)
    (password : Str) (st : Store) (he : email ≠ "") (hp : password ≠ []) :
    ((login sid now ttl email password st).1 =
        ⟨false, 401, "Please verify your email first"⟩ ↔
      ∃ u, st.users.find? (fun v => v.email = email) = some u ∧
        u.verified = false) ∧
    (st.users.find? (fun v => v.email = email) = none →
      (login sid now ttl email password st).1 =
        ⟨false, 401, "Invalid email or password"⟩) ∧
    (∀ u, st.users.find? (fun v => v.email = email) = some u →
      u.verified = true → verifyPassword u.password_hash password = false →
      (login sid now ttl email password st).1 =
        ⟨false, 401, "Invalid email or password"⟩) := by
  refine ⟨?_, ?_, ?_⟩
  · constructor
    · intro h
      cases hf : st.users.find? (fun v => v.email = email) with
      | none =>
          rw [login, loginWith_no_user verifyPassword sid now ttl email password st
            he hp hf] at h
          simp at h
      | some u =>
          cases hv : u.verified with
          | false => exact ⟨u, hf ▸ rfl, hv⟩
          | true =>
              cases hpw : verifyPassword u.password_hash password with
              | false =>
                  rw [login, loginWith_badpw verifyPassword sid now ttl email password
                    st u he hp hf hv hpw] at h
                  simp at h
              | true =>
                  rw [login, loginWith_success verifyPassword sid now ttl email password
                    st u he hp hf hv hpw] at h
                  simp at h
    · rintro ⟨u, hf, hv⟩
      rw [login, loginWith_unverified verifyPassword sid now ttl email password st u
        he hp hf hv]
  · intro hf
    rw [login, loginWith_no_user verifyPassword sid now ttl email password st he hp hf]
  · intro u hf hv hpw
    rw [login, loginWith_badpw verifyPassword sid now ttl email password st u he hp hf
      hv hpw]

/-- Witness for C5 on a one-user store with an unverified account. -/
theorem claim5_witness :
    ("a@x.com" : String) ≠ "" ∧ (['p'] : Str) ≠ [] ∧
    ((login "s" 3 9 "a@x.com" ['p']
        ⟨[⟨"u1", "a@x.com", ['h'], false, 0⟩], [], [], [], 1⟩).1 =
      ⟨false, 401, "Please verify your email first"⟩ ↔
      ∃ u, (⟨[⟨"u1", "a@x.com", ['h'], false, 0⟩], [], [], [], 1⟩ :
          Store).users.find? (fun v => v.email = "a@x.com") = some u ∧
        u.verified = false) :=
  ⟨by decide, by decide,
   (claim5_login_errors "s" 3 9 "a@x.com" ['p']
      ⟨[⟨"u1", "a@x.com", ['h'], false, 0⟩], [], [], [], 1⟩
      (by decide) (by decide)).1⟩

/-- C9: for an existing unverified user the login result is the specific
verification error for every password, and it does not depend on the
password-verification function at all (so `verifyPassword` is never
consulted). -/
theorem claim9_unverified_skips_password (pv pv2 : Str → Str → Bool) (sid : String)
    (now ttl : Nat) (email : String) (password : Str) (st : Store) (u : User)
    (he : email ≠ "") (hp : password ≠ [])
    (hf : st.users.find? (fun v => v.email = email) = some u)
    (hv : u.verified = false) :
    loginWith pv sid now ttl email password st =
      (⟨false, 401, "Please verify your email first"⟩, st) ∧
    loginWith pv sid now ttl email password st =
      loginWith pv2 sid now ttl email password st := by
  have h1 := loginWith_unverified pv sid now ttl email password st u he hp hf hv
  have h2 := loginWith_unverified pv2 sid now ttl email password st u he hp hf hv
  exact ⟨h1, h1.trans h2.symm⟩

/-- Witness for C9: two verification functions with opposite answers give
the same login result on an unverified account. -/
theorem claim9_witness :
    ("a@x.com" : String) ≠ "" ∧ (['p'] : Str) ≠ [] ∧
    loginWith (fun _ _ => true) "s" 3 9 "a@x.com" ['p']
        ⟨[⟨"u1", "a@x.com", ['h'], false, 0⟩], [], [], [], 1⟩ =
      loginWith (fun _ _ => false) "s" 3 9 "a@x.com" ['p']
        ⟨[⟨"u1", "a@x.com", ['h'], false, 0⟩], [], [], [], 1⟩ :=
  ⟨by decide, by decide,
   (claim9_unverified_skips_password (fun _ _ => true) (fun _ _ => false) "s" 3 9
      "a@x.com" ['p'] ⟨[⟨"u1", "a@x.com", ['h'], false, 0⟩], [], [], [], 1⟩
      ⟨"u1", "a@x.com", ['h'], false, 0⟩ (by decide) (by decide) (by decide) rfl).2⟩

/-- C6: as literally stated — conflict "regardless of the password
supplied" — the claim is false: with a password shorter than eight
characters the length check fires before the duplicate-email check, so a
duplicate registration is answered with the password error, not the
conflict error. -/
theorem claim6_counterexample :
    (register ⟨0, "u2", [0], "t", true, true, "x"⟩ "a@x.com" ['a', 'b', 'c']
        ⟨[⟨"u1", "a@x.com", [], false, 0⟩], [], [], [], 1⟩).1 =
      ⟨false, 400, "Password must be at least 8 characters"⟩ ∧
    (∃ u ∈ (⟨[⟨"u1", "a@x.com", [], false, 0⟩], [], [], [], 1⟩ : Store).users,
      u.email = "a@x.com") ∧
    ¬ ((register ⟨0, "u2", [0], "t", true, true, "x"⟩ "a@x.com" ['a', 'b', 'c']
        ⟨[⟨"u1", "a@x.com", [], false, 0⟩], [], [], [], 1⟩).1 =
      ⟨false, 400, "Email already registered"⟩) := by
  refine ⟨by decide, ⟨⟨"u1", "a@x.com", [], false, 0⟩, by decide, by decide⟩, by decide⟩

/-- C6 (amended): for requests that pass input validation (nonempty
email, password of at least eight characters), registering an email that
already exists yields `ConflictError` regardless of which password is
supplied, and leaves the store unchanged. -/
theorem claim6_duplicate_email (cfg : RegCfg) (email : String) (password : Str)
    (st : Store) (he : email ≠ "") (hlen : 8 ≤ password.length)
    (hex : ∃ u ∈ st.users, u.email = email) :
    register cfg email password st = (⟨false, 400, "Email already registered"⟩, st) := by
  have hp : password ≠ [] := by
    intro h
    rw [h] at hlen
    simp at hlen
  have hsome : (st.users.find? (fun v => v.email = email)).isSome = true :=
    List.find?_isSome.mpr (by simpa using hex)
  obtain ⟨u, hu⟩ := Option.isSome_iff_exists.mp hsome
  have hlt : ¬ (password.length < 8) := by omega
  simp [register, he, hp, hlt, hu]

/-- Witness for C6 on a one-user store and an eight-character password. -/
theorem claim6_witness :
    ("a@x.com" : String) ≠ "" ∧
    8 ≤ (['p', 'a', 's', 's', 'w', 'o', 'r', 'd'] : Str).length ∧
    register ⟨0, "u2", [0], "t", true, true, "x"⟩ "a@x.com"
        ['p', 'a', 's', 's', 'w', 'o', 'r', 'd']
        ⟨[⟨"u1", "a@x.com", [], false, 0⟩], [], [], [], 1⟩ =
      (⟨false, 400, "Email already registered"⟩,
       ⟨[⟨"u1", "a@x.com", [], false, 0⟩], [], [], [], 1⟩) :=
  ⟨by decide, by decide,
   claim6_duplicate_email ⟨0, "u2", [0], "t", true, true, "x"⟩ "a@x.com"
     ['p', 'a', 's', 's', 'w', 'o', 'r', 'd']
     ⟨[⟨"u1", "a@x.com", [], false, 0⟩], [], [], [], 1⟩ (by decide) (by decide)
     ⟨⟨"u1", "a@x.com", [], false, 0⟩, by decide, by decide⟩⟩

/-- C7: when registration gets past validation and uniqueness but the
email-dispatch credential is missing or the dispatcher fails, the caller
receives a 500 error while the freshly inserted unverified user row and
its verification token row remain in the store — no rollback. -/
theorem claim7_no_rollback (cfg : RegCfg) (email : String) (password : Str)
    (st : Store) (he : email ≠ "") (hlen : 8 ≤ password.length)
    (hnone : st.users.find? (fun v => v.email = email) = none)
    (hfail : cfg.apiKeyPresent = false ∨ cfg.emailOk = false) :
    (register cfg email password st).1.ok = false ∧
    (register cfg email password st).1.status = 500 ∧
    (⟨cfg.userId, email, hashPassword cfg.saltBytes password, false, cfg.now⟩ : User) ∈
      (register cfg email password st).2.users ∧
    (⟨cfg.token, cfg.userId, cfg.now + 60 * 60 * 1000⟩ : VToken) ∈
      (register cfg email password st).2.tokens := by
  have hp : password ≠ [] := by
    intro h
    rw [h] at hlen
    simp at hlen
  have hlt : ¬ (password.length < 8) := by omega
  cases hk : cfg.apiKeyPresent with
  | false => simp [register, he, hp, hlt, hnone, hk]
  | true =>
      have hm : cfg.emailOk = false := by
        rcases hfail with h | h
        · rw [hk] at h; exact absurd h (by simp)
        · exact h
      simp [register, he, hp, hlt, hnone, hk, hm]

/-- Witness for C7 on the empty store with the dispatch key missing. -/
theorem claim7_witness :
    ("a@x.com" : String) ≠ "" ∧
    8 ≤ (['p', 'a', 's', 's', 'w', 'o', 'r', 'd'] : Str).length ∧
    ((⟨[], [], [], [], 1⟩ : Store).users.find? (fun v => v.email = "a@x.com") = none) ∧
    ((register ⟨2, "u2", [0], "t", false, true, "x"⟩ "a@x.com"
        ['p', 'a', 's', 's', 'w', 'o', 'r', 'd'] ⟨[], [], [], [], 1⟩).1.status = 500 ∧
     (⟨"u2", "a@x.com", hashPassword [0] ['p', 'a', 's', 's', 'w', 'o', 'r', 'd'],
        false, 2⟩ : User) ∈
      (register ⟨2, "u2", [0], "t", false, true, "x"⟩ "a@x.com"
        ['p', 'a', 's', 's', 'w', 'o', 'r', 'd'] ⟨[], [], [], [], 1⟩).2.users) :=
  ⟨by decide, by decide, by decide,
   (claim7_no_rollback ⟨2, "u2", [0], "t", false, true, "x"⟩ "a@x.com"
      ['p', 'a', 's', 's', 'w', 'o', 'r', 'd'] ⟨[], [], [], [], 1⟩ (by decide)
      (by decide) (by decide) (Or.inl rfl)).2.1,
   (claim7_no_rollback ⟨2, "u2", [0], "t", false, true, "x"⟩ "a@x.com"
      ['p', 'a', 's', 's', 'w', 'o', 'r', 'd'] ⟨[], [], [], [], 1⟩ (by decide)
      (by decide) (by decide) (Or.inl rfl)).2.2.1⟩

/-! ## Lemmas about the verified flag -/

/-- Whether the store knows `id` as a verified user. -/
def verifiedTrue (st : Store) (id : String) : Bool :=
  match st.users.find? (fun v => v.id = id) with
  | none => false
  | some u => u.verified

/-- A keyed lookup that succeeds on the left of an append still succeeds. -/
theorem find?_append_some {p : User → Bool} {l1 : List User} (l2 : List User)
    {u : User} (h : l1.find? p = some u) : (l1 ++ l2).find? p = some u := by
  rw [List.find?_append, h]
  rfl

/-- Keyed user lookup commutes with an id-preserving map. -/
theorem find?_map_presid (l : List User) (f : User → User)
    (hid : ∀ u, (f u).id = u.id) (id : String) :
    (l.map f).find? (fun v => v.id = id) =
      (l.find? (fun v => v.id = id)).map f := by
  induction l with
  | nil => rfl
  | cons u us ih =>
      rw [List.map_cons]
      by_cases hp : u.id = id
      · rw [List.find?_cons_of_pos _ (by simp [hid, hp]),
          List.find?_cons_of_pos _ (by simp [hp])]
        rfl
      · rw [List.find?_cons_of_neg _ (by simp [hid, hp]),
          List.find?_cons_of_neg _ (by simp [hp]), ih]

/-- `verifiedTrue` only looks at the users table. -/
theorem verifiedTrue_congr (st st2 : Store) (h : st2.users = st.users) (id : String) :
    verifiedTrue st2 id = verifiedTrue st id := by
  unfold verifiedTrue
  rw [h]

/-- `validateSession` never changes the users table. -/
theorem validateSession_users (now : Nat) (sid : String) (st : Store) :
    (validateSession now sid st).2.users = st.users := by
  unfold validateSession
  split
  · rfl
  · split
    · rfl
    · split
      · rfl
      · rfl

/-- `loginWith` never changes the users table. -/
theorem loginWith_users (pv : Str → Str → Bool) (sid : String) (now ttl : Nat)
    (email : String) (password : Str) (st : Store) :
    (loginWith pv sid now ttl email password st).2.users = st.users := by
  unfold loginWith
  split
  · rfl
  · split
    · rfl
    · split
      · rfl
      · split
        · rfl
        · simp [createSession]

/-- `logout` never changes the users table. -/
theorem logout_users (cookieSid : Option String) (st : Store) :
    (logout cookieSid st).2.users = st.users := by
  unfold logout
  cases cookieSid with
  | none => rfl
  | some sid =>
      by_cases h : sid = "" <;> simp [h, invalidateSession]

/-- `postMessage` never changes the users table. -/
theorem postMessage_users (now : Nat) (cookieSid : Option String) (body : Option Str)
    (st : Store) : (postMessage now cookieSid body st).2.users = st.users := by
  unfold postMessage
  cases cookieSid with
  | none => rfl
  | some sid =>
      by_cases hsid : sid = ""
      · simp [hsid]
      · simp only [hsid, if_false, reduceIte]
        cases hval : validateSession now sid st with
        | mk r st1 =>
            have hu : st1.users = st.users := by
              have := validateSession_users now sid st
              rw [hval] at this
              exact this
            cases r with
            | none => simpa using hu
            | some u =>
                cases body with
                | none => simpa using hu
                | some message =>
                    by_cases h1 : message = [] ∨ jsTrim message = []
                    · simp [h1, hu]
                    · by_cases h2 : message.length > 1000
                      · simp [h1, h2, hu]
                      · simp [h1, h2, hu]

/-- Appending users on the right preserves a verified lookup. -/
theorem verifiedTrue_users_append (st2 st : Store) (l2 : List User)
    (husers : st2.users = st.users ++ l2) (id : String)
    (h : verifiedTrue st id = true) : verifiedTrue st2 id = true := by
  unfold verifiedTrue at h ⊢
  rw [husers]
  cases hfind : st.users.find? (fun v => v.id = id) with
  | none => rw [hfind] at h; simp at h
  | some u =>
      rw [find?_append_some l2 hfind]
      rw [hfind] at h
      exact h

/-- `register` preserves every verified user. -/
theorem register_verifiedTrue (cfg : RegCfg) (email : String) (password : Str)
    (st : Store) (id : String) (h : verifiedTrue st id = true) :
    verifiedTrue (register cfg email password st).2 id = true := by
  simp only [register]
  split
  · exact h
  · split
    · exact h
    · split
      · exact h
      · split
        · exact verifiedTrue_users_append _ st _ rfl id h
        · split
          · exact verifiedTrue_users_append _ st _ rfl id h
          · exact verifiedTrue_users_append _ st _ rfl id h

/-- The users table after `register` is unchanged or extended by the one
new unverified row. -/
theorem register_users_cases (cfg : RegCfg) (email : String) (password : Str)
    (st : Store) :
    (register cfg email password st).2.users = st.users ∨
    (register cfg email password st).2.users = st.users ++
      [⟨cfg.userId, email, hashPassword cfg.saltBytes password, false, cfg.now⟩] := by
  simp only [register]
  split
  · exact Or.inl rfl
  · split
    · exact Or.inl rfl
    · split
      · exact Or.inl rfl
      · split
        · exact Or.inr rfl
        · split
          · exact Or.inr rfl
          · exact Or.inr rfl

/-- `register` only ever inserts unverified users. -/
theorem register_users_shape (cfg : RegCfg) (email : String) (password : Str)
    (st : Store) :
    ∀ u2 ∈ (register cfg email password st).2.users,
      u2 ∈ st.users ∨ u2.verified = false := by
  intro u2 hu2
  rcases register_users_cases cfg email password st with h | h
  · rw [h] at hu2
    exact Or.inl hu2
  · rw [h] at hu2
    rcases List.mem_append.mp hu2 with hm | hm
    · exact Or.inl hm
    · rcases List.mem_cons.mp hm with hm | hm
      · exact Or.inr (by rw [hm])
      · simp at hm

/-- `verifyEmail` preserves every verified user. -/
theorem verifyEmail_verifiedTrue (now : Nat) (sid : String) (ttl : Nat)
    (tk : Option String) (st : Store) (id : String)
    (h : verifiedTrue st id = true) :
    verifiedTrue (verifyEmail now sid ttl tk st).2 id = true := by
  cases tk with
  | none => exact h
  | some t =>
      by_cases ht : t = ""
      · rw [show verifyEmail now sid ttl (some t) st = (.invalidLink, st) from by
          simp [verifyEmail, ht]]
        exact h
      · cases hf : st.tokens.find? (fun v => v.token = t) with
        | none =>
            rw [verifyEmail_absent now ttl sid t st ht hf]
            exact h
        | some td =>
            by_cases hexp : td.expires_at < now
            · rw [verifyEmail_expired_state now ttl sid t st td ht hf hexp]
              exact h
            · rw [verifyEmail_success_state now ttl sid t st td ht hf hexp]
              unfold verifiedTrue at h ⊢
              rw [find?_map_presid st.users _
                (fun u => by by_cases hu : u.id = td.user_id <;> simp [hu]) id]
              cases hfind : st.users.find? (fun v => v.id = id) with
              | none => rw [hfind] at h; simp at h
              | some u =>
                  rw [hfind] at h
                  have h2 : u.verified = true := h
                  by_cases hu : u.id = td.user_id <;> simp [hu, h2]

/-- Any user row after `verifyEmail` is an old row, at most with its
verified flag turned on. -/
theorem verifyEmail_users_shape (now : Nat) (sid : String) (ttl : Nat)
    (tk : Option String) (st : Store) :
    ∀ u2 ∈ (verifyEmail now sid ttl tk st).2.users,
      ∃ u ∈ st.users, u2 = u ∨ u2 = { u with verified := true } := by
  intro u2 hu2
  cases tk with
  | none => exact ⟨u2, hu2, Or.inl rfl⟩
  | some t =>
      by_cases ht : t = ""
      · rw [show verifyEmail now sid ttl (some t) st = (.invalidLink, st) from by
          simp [verifyEmail, ht]] at hu2
        exact ⟨u2, hu2, Or.inl rfl⟩
      · cases hf : st.tokens.find? (fun v => v.token = t) with
        | none =>
            rw [verifyEmail_absent now ttl sid t st ht hf] at hu2
            exact ⟨u2, hu2, Or.inl rfl⟩
        | some td =>
            by_cases hexp : td.expires_at < now
            · rw [verifyEmail_expired_state now ttl sid t st td ht hf hexp] at hu2
              exact ⟨u2, hu2, Or.inl rfl⟩
            · rw [verifyEmail_success_state now ttl sid t st td ht hf hexp] at hu2
              simp only [List.mem_map] at hu2
              obtain ⟨u, hu, hfu⟩ := hu2
              by_cases hid : u.id = td.user_id
              · refine ⟨u, hu, Or.inr ?_⟩
                rw [← hfu]
                simp [hid]
              · refine ⟨u, hu, Or.inl ?_⟩
                rw [← hfu]
                simp [hid]

/-- C8: the verified flag is monotonic. Users are created unverified by
`register`; `verifyEmail` is the only operation that rewrites a user row
and it only turns the verified flag on; every core operation preserves
every already-verified user. -/
theorem claim8_verified_monotone :
    (∀ (cfg : RegCfg) (email : String) (password : Str) (st : Store) (id : String),
      verifiedTrue st id = true →
      verifiedTrue (register cfg email password st).2 id = true) ∧
    (∀ (cfg : RegCfg) (email : String) (password : Str) (st : Store),
      ∀ u2 ∈ (register cfg email password st).2.users,
        u2 ∈ st.users ∨ u2.verified = false) ∧
    (∀ (now : Nat) (sid : String) (ttl : Nat) (tk : Option String) (st : Store)
      (id : String), verifiedTrue st id = true →
      verifiedTrue (verifyEmail now sid ttl tk st).2 id = true) ∧
    (∀ (pv : Str → Str → Bool) (sid : String) (now ttl : Nat) (email : String)
      (password : Str) (st : Store) (id : String), verifiedTrue st id = true →
      verifiedTrue (loginWith pv sid now ttl email password st).2 id = true) ∧
    (∀ (cookieSid : Option String) (st : Store) (id : String),
      verifiedTrue st id = true → verifiedTrue (logout cookieSid st).2 id = true) ∧
    (∀ (now : Nat) (cookieSid : Option String) (body : Option Str) (st : Store)
      (id : String), verifiedTrue st id = true →
      verifiedTrue (postMessage now cookieSid body st).2 id = true) ∧
    (∀ (now : Nat) (sid : String) (ttl : Nat) (tk : Option String) (st : Store),
      ∀ u2 ∈ (verifyEmail now sid ttl tk st).2.users,
        ∃ u ∈ st.users, u2 = u ∨ u2 = { u with verified := true }) := by
  refine ⟨register_verifiedTrue, register_users_shape, verifyEmail_verifiedTrue,
    ?_, ?_, ?_, verifyEmail_users_shape⟩
  · intro pv sid now ttl email password st id h
    rw [verifiedTrue_congr st _ (loginWith_users pv sid now ttl email password st) id]
    exact h
  · intro cookieSid st id h
    rw [verifiedTrue_congr st _ (logout_users cookieSid st) id]
    exact h
  · intro now cookieSid body st id h
    rw [verifiedTrue_congr st _ (postMessage_users now cookieSid body st) id]
    exact h

/-- Witness for C8: a verified user stays verified across a logout and a
verification call on a one-user store. -/
theorem claim8_witness :
    verifiedTrue ⟨[⟨"u1", "e", [], true, 0⟩], [], [], [], 1⟩ "u1" = true ∧
    verifiedTrue (logout (some "s")
      ⟨[⟨"u1", "e", [], true, 0⟩], [], [], [], 1⟩).2 "u1" = true ∧
    verifiedTrue (verifyEmail 3 "s" 9 (some "x")
      ⟨[⟨"u1", "e", [], true, 0⟩], [], [], [], 1⟩).2 "u1" = true :=
  ⟨by decide,
   claim8_verified_monotone.2.2.2.2.1 (some "s")
     ⟨[⟨"u1", "e", [], true, 0⟩], [], [], [], 1⟩ "u1" (by decide),
   claim8_verified_monotone.2.2.1 3 "s" 9 (some "x")
     ⟨[⟨"u1", "e", [], true, 0⟩], [], [], [], 1⟩ "u1" (by decide)⟩

/-! ## Lemmas about posting messages -/

/-- `dropWhile` is the identity when no element satisfies the predicate. -/
theorem dropWhile_all_false (p : Char → Bool) (l : Str)
    (h : ∀ c ∈ l, p c = false) : l.dropWhile p = l := by
  cases l with
  | nil => rfl
  | cons c cs =>
      rw [List.dropWhile_cons, h c (List.mem_cons_self c cs)]
      simp

/-- Trimming is the identity on whitespace-free text. -/
theorem jsTrim_eq_self (l : Str) (h : ∀ c ∈ l, isJsWhitespace c = false) :
    jsTrim l = l := by
  unfold jsTrim
  rw [dropWhile_all_false _ _ h,
    dropWhile_all_false _ _ (fun c hc => h c (List.mem_reverse.mp hc)),
    List.reverse_reverse]

/-- A run of letters is its own trim. -/
theorem jsTrim_replicate_a (n : Nat) :
    jsTrim (List.replicate n 'a') = List.replicate n 'a' :=
  jsTrim_eq_self _ (fun c hc => by rw [(List.mem_replicate.mp hc).2]; rfl)

/-- Post path: empty trimmed body. -/
theorem postMessage_reject_empty (now : Nat) (sid : String) (body : Str) (st : Store)
    (u : User) (hsid : sid ≠ "")
    (hsess : validateSession now sid st = (some u, st)) (ht : jsTrim body = []) :
    postMessage now (some sid) (some body) st =
      (⟨false, 400, "Message cannot be empty"⟩, st) := by
  simp [postMessage, hsid, hsess, ht]

/-- Post path: body longer than 1000 characters. -/
theorem postMessage_reject_long (now : Nat) (sid : String) (body : Str) (st : Store)
    (u : User) (hsid : sid ≠ "")
    (hsess : validateSession now sid st = (some u, st)) (ht : jsTrim body ≠ [])
    (hlen : body.length > 1000) :
    postMessage now (some sid) (some body) st =
      (⟨false, 400, "Message is too long (max 1000 characters)"⟩, st) := by
  have hb : body ≠ [] := fun h => ht (by rw [h]; rfl)
  simp [postMessage, hsid, hsess, hb, ht, hlen]

/-- Post path: accepted body, appended trimmed with the current
timestamp. -/
theorem postMessage_accept (now : Nat) (sid : String) (body : Str) (st : Store)
    (u : User) (hsid : sid ≠ "")
    (hsess : validateSession now sid st = (some u, st)) (ht : jsTrim body ≠ [])
    (hlen : ¬ (body.length > 1000)) :
    postMessage now (some sid) (some body) st =
      (⟨true, 200, "Message posted"⟩,
       { st with messages := st.messages ++ [⟨st.nextMsgId, u.id, jsTrim body, now⟩],
                 nextMsgId := st.nextMsgId + 1 }) := by
  have hb : body ≠ [] := fun h => ht (by rw [h]; rfl)
  simp [postMessage, hsid, hsess, hb, ht, hlen]

/-- C4: with a valid session, posting trims the text, rejects an empty
trim or a text longer than 1000 characters with a `ValidationError`, and
otherwise appends the trimmed message with the current timestamp; a
message of exactly 1000 characters is accepted, one of 1001 characters
is rejected. -/
theorem claim4_post_validation (now : Nat) (sid : String) (body : Str) (st : Store)
    (u : User) (hsid : sid ≠ "")
    (hsess : validateSession now sid st = (some u, st)) :
    (jsTrim body = [] →
      postMessage now (some sid) (some body) st =
        (⟨false, 400, "Message cannot be empty"⟩, st)) ∧
    (jsTrim body ≠ [] → body.length > 1000 →
      postMessage now (some sid) (some body) st =
        (⟨false, 400, "Message is too long (max 1000 characters)"⟩, st)) ∧
    (jsTrim body ≠ [] → body.length ≤ 1000 →
      postMessage now (some sid) (some body) st =
        (⟨true, 200, "Message posted"⟩,
         { st with messages := st.messages ++ [⟨st.nextMsgId, u.id, jsTrim body, now⟩],
                   nextMsgId := st.nextMsgId + 1 })) ∧
    ((postMessage now (some sid) (some body) st).1.ok = false ↔
      (jsTrim body = [] ∨ body.length > 1000)) ∧
    (postMessage now (some sid) (some (List.replicate 1000 'a')) st).1 =
      ⟨true, 200, "Message posted"⟩ ∧
    (postMessage now (some sid) (some (List.replicate 1001 'a')) st).1 =
      ⟨false, 400, "Message is too long (max 1000 characters)"⟩ := by
  refine ⟨?_, ?_, ?_, ?_, ?_, ?_⟩
  · exact postMessage_reject_empty now sid body st u hsid hsess
  · intro ht hlen
    exact postMessage_reject_long now sid body st u hsid hsess ht hlen
  · intro ht hlen
    exact postMessage_accept now sid body st u hsid hsess ht (by omega)
  · by_cases ht : jsTrim body = []
    · rw [postMessage_reject_empty now sid body st u hsid hsess ht]
      simp [ht]
    · by_cases hlen : body.length > 1000
      · rw [postMessage_reject_long now sid body st u hsid hsess ht hlen]
        simp [ht, hlen]
      · rw [postMessage_accept now sid body st u hsid hsess ht hlen]
        simp [ht, hlen]
  · rw [postMessage_accept now sid (List.replicate 1000 'a') st u hsid hsess
      (by
        rw [jsTrim_replicate_a]
        intro h
        have := congrArg List.length h
        rw [List.length_replicate] at this
        simp at this)
      (by rw [List.length_replicate]; omega)]
  · rw [postMessage_reject_long now sid (List.replicate 1001 'a') st u hsid hsess
      (by
        rw [jsTrim_replicate_a]
        intro h
        have := congrArg List.length h
        rw [List.length_replicate] at this
        simp at this)
      (by rw [List.length_replicate]; omega)]

/-- Witness for C4: posting "hi" with a live session appends the
message. -/
theorem claim4_witness :
    ("s" : String) ≠ "" ∧
    validateSession 5 "s" ⟨[⟨"u1", "e", [], true, 0⟩], [], [⟨"s", "u1", 10⟩], [], 1⟩ =
      (some ⟨"u1", "e", [], true, 0⟩,
       ⟨[⟨"u1", "e", [], true, 0⟩], [], [⟨"s", "u1", 10⟩], [], 1⟩) ∧
    postMessage 5 (some "s") (some ['h', 'i'])
        ⟨[⟨"u1", "e", [], true, 0⟩], [], [⟨"s", "u1", 10⟩], [], 1⟩ =
      (⟨true, 200, "Message posted"⟩,
       ⟨[⟨"u1", "e", [], true, 0⟩], [], [⟨"s", "u1", 10⟩],
        [⟨1, "u1", ['h', 'i'], 5⟩], 2⟩) :=
  ⟨by decide, by decide,
   (claim4_post_validation 5 "s" ['h', 'i']
      ⟨[⟨"u1", "e", [], true, 0⟩], [], [⟨"s", "u1", 10⟩], [], 1⟩
      ⟨"u1", "e", [], true, 0⟩ (by decide) (by decide)).2.2.1
     (by decide) (by decide)⟩

/-! ## Lemmas about the message list -/

/-- Stripping the join keeps exactly the message rows when every message
has its author (the foreign key of the schema). -/
theorem filterMap_join_fst (us : List User) (ms : List Msg)
    (h : ∀ m ∈ ms, (us.find? (fun u => u.id = m.user_id)).isSome = true) :
    (ms.filterMap (fun m => (us.find? (fun u => u.id = m.user_id)).map
      (fun u => (m, u)))).map Prod.fst = ms := by
  induction ms with
  | nil => rfl
  | cons m ms ih =>
      rw [List.filterMap_cons]
      obtain ⟨u, hu⟩ := Option.isSome_iff_exists.mp (h m (List.mem_cons_self m ms))
      rw [hu]
      simp only [Option.map_some']
      rw [List.map_cons, ih (fun m2 hm2 => h m2 (List.mem_cons_of_mem m hm2))]

/-- Under the foreign key, the joined rows project to the messages. -/
theorem joinedRows_fst (st : Store)
    (hFK : ∀ m ∈ st.messages,
      (st.users.find? (fun u => u.id = m.user_id)).isSome = true) :
    (joinedRows st).map Prod.fst = st.messages :=
  filterMap_join_fst st.users st.messages hFK

/-- A joined row is a stored message with its found author. -/
theorem mem_joinedRows (st : Store) (p : Msg × User) (hp : p ∈ joinedRows st) :
    p.1 ∈ st.messages ∧
      st.users.find? (fun u => u.id = p.1.user_id) = some p.2 := by
  unfold joinedRows at hp
  rw [List.mem_filterMap] at hp
  obtain ⟨m, hm, hmap⟩ := hp
  cases hfind : st.users.find? (fun u => u.id = m.user_id) with
  | none => rw [hfind] at hmap; simp at hmap
  | some u =>
      rw [hfind] at hmap
      simp only [Option.map_some', Option.some.injEq] at hmap
      rw [← hmap]
      exact ⟨hm, hfind⟩

/-- Filtering the joined rows and projecting is filtering the
messages. -/
theorem joined_filter_fst (st : Store) (after : JsNum)
    (hFK : ∀ m ∈ st.messages,
      (st.users.find? (fun u => u.id = m.user_id)).isSome = true) :
    ((joinedRows st).filter (fun p => jsGtNum p.1.created_at after)).map Prod.fst =
      st.messages.filter (fun m => jsGtNum m.created_at after) := by
  calc ((joinedRows st).filter (fun p => jsGtNum p.1.created_at after)).map Prod.fst
      = ((joinedRows st).map Prod.fst).filter (fun m => jsGtNum m.created_at after) :=
        (@List.filter_map (Msg × User) Msg (fun m => jsGtNum m.created_at after)
          Prod.fst (joinedRows st)).symm
    _ = st.messages.filter (fun m => jsGtNum m.created_at after) := by
        rw [joinedRows_fst st hFK]

/-- The message list is nondecreasing in `createdAt`. -/
theorem listAfter_sorted (st : Store) (after : JsNum) :
    List.Pairwise (fun x y : MsgOut => x.createdAt ≤ y.createdAt)
      (listAfter st after) := by
  unfold listAfter
  apply List.pairwise_map.mpr
  have hs : List.Pairwise msgRowLe
      (List.take 100 (List.insertionSort msgRowLe
        ((joinedRows st).filter (fun p => jsGtNum p.1.created_at after)))) :=
    List.Pairwise.sublist (List.take_sublist 100 _)
      (List.sorted_insertionSort msgRowLe _)
  exact hs.imp (fun h => h)

/-- The message list never exceeds 100 rows. -/
theorem listAfter_len (st : Store) (after : JsNum) :
    (listAfter st after).length ≤ 100 := by
  unfold listAfter
  rw [List.length_map, List.length_take]
  exact min_le_left _ _

/-- Every returned row comes from a joined row passing the filter. -/
theorem listAfter_mem (st : Store) (after : JsNum) (mo : MsgOut)
    (h : mo ∈ listAfter st after) :
    ∃ p, p ∈ joinedRows st ∧ jsGtNum p.1.created_at after = true ∧
      mo = ⟨p.1.id, p.1.message, p.2.email, p.1.created_at⟩ := by
  unfold listAfter at h
  rw [List.mem_map] at h
  obtain ⟨p, hp, hmo⟩ := h
  have hp2 := (List.take_sublist 100 _).subset hp
  have hp3 := (List.perm_insertionSort msgRowLe _).mem_iff.mp hp2
  have hf := List.mem_filter.mp hp3
  exact ⟨p, hf.1, hf.2, hmo.symm⟩

/-- Below the cap, the list is a permutation of the filtered joined
rows. -/
theorem listAfter_perm (st : Store) (after : JsNum)
    (hlen : ((joinedRows st).filter
      (fun p => jsGtNum p.1.created_at after)).length ≤ 100) :
    (listAfter st after).Perm
      (((joinedRows st).filter (fun p => jsGtNum p.1.created_at after)).map
        (fun p => (⟨p.1.id, p.1.message, p.2.email, p.1.created_at⟩ : MsgOut))) := by
  unfold listAfter
  rw [List.take_of_length_le (by rw [List.length_insertionSort]; exact hlen)]
  exact (List.perm_insertionSort msgRowLe _).map _

/-- The identifying fields of a message row. -/
def msgTriple (m : Msg) : Nat × Str × Nat := (m.id, m.message, m.created_at)

/-- The identifying fields of a response row. -/
def outTriple (mo : MsgOut) : Nat × Str × Nat := (mo.id, mo.message, mo.createdAt)

/-- Below the cap, the listed rows are exactly the stored messages
passing the filter. -/
theorem listAfter_perm_messages (st : Store) (after : JsNum)
    (hFK : ∀ m ∈ st.messages,
      (st.users.find? (fun u => u.id = m.user_id)).isSome = true)
    (hlen : (st.messages.filter
      (fun m => jsGtNum m.created_at after)).length ≤ 100) :
    ((listAfter st after).map outTriple).Perm
      ((st.messages.filter (fun m => jsGtNum m.created_at after)).map msgTriple) := by
  have hmapeq := joined_filter_fst st after hFK
  have hlen2 : ((joinedRows st).filter
      (fun p => jsGtNum p.1.created_at after)).length ≤ 100 := by
    have := congrArg List.length hmapeq
    rw [List.length_map] at this
    omega
  have hperm := (listAfter_perm st after hlen2).map outTriple
  rw [List.map_map] at hperm
  have heq : (outTriple ∘ fun p : Msg × User =>
      (⟨p.1.id, p.1.message, p.2.email, p.1.created_at⟩ : MsgOut)) =
      (msgTriple ∘ Prod.fst) := rfl
  rw [heq, ← List.map_map] at hperm
  rw [hmapeq] at hperm
  exact hperm

/-- The largest `created_at` the store has seen. -/
def maxCreated (st : Store) : Nat :=
  st.messages.foldl (fun acc m => max acc m.created_at) 0

/-- The max-fold only grows. -/
theorem foldl_max_mono (l : List Msg) (a : Nat) :
    a ≤ l.foldl (fun acc m => max acc m.created_at) a := by
  induction l generalizing a with
  | nil => exact Nat.le_refl a
  | cons m ms ih => exact le_trans (Nat.le_max_left a m.created_at) (ih _)

/-- The max-fold bounds every element. -/
theorem le_foldl_max (l : List Msg) (a : Nat) :
    ∀ m ∈ l, m.created_at ≤ l.foldl (fun acc m => max acc m.created_at) a := by
  induction l generalizing a with
  | nil => intro m hm; simp at hm
  | cons m2 ms ih =>
      intro m hm
      rcases List.mem_cons.mp hm with rfl | hm
      · exact le_trans (Nat.le_max_right a m.created_at) (foldl_max_mono ms _)
      · exact ih _ m hm

/-- Every stored message is created at or before `maxCreated`. -/
theorem le_maxCreated (st : Store) :
    ∀ m ∈ st.messages, m.created_at ≤ maxCreated st :=
  le_foldl_max st.messages 0

/-- At the watermark, nothing passes the filter. -/
theorem filter_joined_max_nil (st st2 : Store) (hmsg : st2.messages = st.messages) :
    (joinedRows st2).filter
      (fun p => jsGtNum p.1.created_at (some (maxCreated st : Int))) = [] := by
  rw [List.filter_eq_nil_iff]
  intro p hp
  have hmem := (mem_joinedRows st2 p hp).1
  rw [hmsg] at hmem
  have hle := le_maxCreated st p.1 hmem
  simp only [jsGtNum, decide_eq_true_eq, not_lt]
  exact_mod_cast hle

/-- Listing after the watermark yields nothing. -/
theorem listAfter_max_nil (st : Store) :
    listAfter st (some (maxCreated st : Int)) = [] := by
  unfold listAfter
  rw [filter_joined_max_nil st st rfl]
  rfl

/-- Listing after `NaN` yields nothing. -/
theorem listAfter_nan (st : Store) : listAfter st none = [] := by
  unfold listAfter
  have hfil : (joinedRows st).filter (fun p => jsGtNum p.1.created_at none) = [] := by
    rw [List.filter_eq_nil_iff]
    intro p hp
    simp [jsGtNum]
  rw [hfil]
  rfl

/-- A user a session resolves to is keyed by its own id in the store. -/
theorem validateSession_user_find (now : Nat) (sid : String) (st : Store) (u : User)
    (h : (validateSession now sid st).1 = some u) :
    st.users.find? (fun v => v.id = u.id) = some u := by
  cases hfs : st.sessions.find? (fun t => t.id = sid) with
  | none =>
      have hv : (validateSession now sid st).1 = none := by
        simp [validateSession, hfs]
      rw [hv] at h
      simp at h
  | some s =>
      by_cases hexp : s.expires_at ≤ now
      · have hv : (validateSession now sid st).1 = none := by
          simp [validateSession, hfs, hexp]
        rw [hv] at h
        simp at h
      · cases hfu : st.users.find? (fun v => v.id = s.user_id) with
        | none =>
            have hv : (validateSession now sid st).1 = none := by
              simp [validateSession, hfs, hexp, hfu]
            rw [hv] at h
            simp at h
        | some u2 =>
            have hv : (validateSession now sid st).1 = some u2 := by
              simp [validateSession, hfs, hexp, hfu]
            rw [hv] at h
            have hu2 : u2 = u := Option.some.inj h
            subst hu2
            have hid : u2.id = s.user_id := by
              have := List.find?_some hfu
              simpa using this
            rw [show (fun v : User => decide (v.id = u2.id)) =
                (fun v : User => decide (v.id = s.user_id)) from
              funext (fun v => by rw [hid])]
            exact hfu

/-- C3: under the schema's foreign key, `list(after)` returns exactly the
stored messages with `created_at > after`, joined with their author,
ascending in `created_at` and capped at 100; `list(0)` returns all
messages (when they are positively timestamped and within the cap);
listing from the maximum `created_at` seen is empty until a new message
is posted, after which it contains exactly the new message. -/
theorem claim3_list_contract (st : Store) (a : Int)
    (hFK : ∀ m ∈ st.messages,
      (st.users.find? (fun u => u.id = m.user_id)).isSome = true) :
    List.Pairwise (fun x y : MsgOut => x.createdAt ≤ y.createdAt)
      (listAfter st (some a)) ∧
    (∀ mo ∈ listAfter st (some a), a < (mo.createdAt : Int) ∧
      ∃ m ∈ st.messages, ∃ au, st.users.find? (fun v => v.id = m.user_id) = some au ∧
        mo = ⟨m.id, m.message, au.email, m.created_at⟩) ∧
    (listAfter st (some a)).length ≤ 100 ∧
    ((st.messages.filter (fun m => jsGtNum m.created_at (some a))).length ≤ 100 →
      ((listAfter st (some a)).map outTriple).Perm
        ((st.messages.filter (fun m => jsGtNum m.created_at (some a))).map
          msgTriple)) ∧
    ((∀ m ∈ st.messages, 0 < m.created_at) → st.messages.length ≤ 100 →
      ((listAfter st (some 0)).map outTriple).Perm (st.messages.map msgTriple)) ∧
    listAfter st (some (maxCreated st : Int)) = [] ∧
    (∀ (now : Nat) (sid : String) (u : User) (body : Str), sid ≠ "" →
      validateSession now sid st = (some u, st) → jsTrim body ≠ [] →
      body.length ≤ 1000 → (maxCreated st : Int) < (now : Int) →
      listAfter (postMessage now (some sid) (some body) st).2
          (some (maxCreated st : Int)) =
        [⟨st.nextMsgId, jsTrim body, u.email, now⟩]) := by
  refine ⟨listAfter_sorted st (some a), ?_, listAfter_len st (some a),
    listAfter_perm_messages st (some a) hFK, ?_, listAfter_max_nil st, ?_⟩
  · intro mo hmo
    obtain ⟨p, hp, hpred, hmoeq⟩ := listAfter_mem st (some a) mo hmo
    obtain ⟨hmem, hfind⟩ := mem_joinedRows st p hp
    constructor
    · rw [hmoeq]
      simpa [jsGtNum] using hpred
    · exact ⟨p.1, hmem, p.2, hfind, hmoeq⟩
  · intro hpos hcnt
    have hall : st.messages.filter
        (fun m => jsGtNum m.created_at (some (0 : Int))) = st.messages := by
      rw [List.filter_eq_self]
      intro m hm
      simp only [jsGtNum, decide_eq_true_eq]
      exact_mod_cast hpos m hm
    have hp2 := listAfter_perm_messages st (some 0) hFK (by rw [hall]; exact hcnt)
    rw [hall] at hp2
    exact hp2
  · intro now sid u body hsid hsess ht hlen hmax
    rw [postMessage_accept now sid body st u hsid hsess ht (by omega)]
    have hfind : st.users.find? (fun v => v.id = u.id) = some u :=
      validateSession_user_find now sid st u (by rw [hsess])
    have hjoin : joinedRows
        { st with
          messages := st.messages ++ [⟨st.nextMsgId, u.id, jsTrim body, now⟩],
          nextMsgId := st.nextMsgId + 1 } =
        joinedRows st ++ [(⟨st.nextMsgId, u.id, jsTrim body, now⟩, u)] := by
      unfold joinedRows
      simp only [List.filterMap_append]
      congr 1
      simp [hfind]
    unfold listAfter
    rw [hjoin, List.filter_append, filter_joined_max_nil st st rfl]
    have hone : List.filter
        (fun p : Msg × User => jsGtNum p.1.created_at (some (maxCreated st : Int)))
        [(⟨st.nextMsgId, u.id, jsTrim body, now⟩, u)] =
        [(⟨st.nextMsgId, u.id, jsTrim body, now⟩, u)] := by
      simp only [List.filter_cons, List.filter_nil]
      rw [if_pos ?_]
      simp only [jsGtNum, decide_eq_true_eq]
      exact hmax
    rw [List.nil_append, hone]
    rfl

/-- Witness for C3 on a one-user, one-message store. -/
theorem claim3_witness :
    (∀ m ∈ (⟨[⟨"u1", "e", [], true, 0⟩], [], [], [⟨1, "u1", ['h'], 5⟩], 2⟩ :
        Store).messages,
      ((⟨[⟨"u1", "e", [], true, 0⟩], [], [], [⟨1, "u1", ['h'], 5⟩], 2⟩ :
        Store).users.find? (fun u => u.id = m.user_id)).isSome = true) ∧
    List.Pairwise (fun x y : MsgOut => x.createdAt ≤ y.createdAt)
      (listAfter ⟨[⟨"u1", "e", [], true, 0⟩], [], [], [⟨1, "u1", ['h'], 5⟩], 2⟩
        (some 2)) ∧
    listAfter ⟨[⟨"u1", "e", [], true, 0⟩], [], [], [⟨1, "u1", ['h'], 5⟩], 2⟩
      (some (maxCreated
        ⟨[⟨"u1", "e", [], true, 0⟩], [], [], [⟨1, "u1", ['h'], 5⟩], 2⟩ : Int)) = [] :=
  ⟨by decide,
   (claim3_list_contract ⟨[⟨"u1", "e", [], true, 0⟩], [], [], [⟨1, "u1", ['h'], 5⟩], 2⟩
      2 (by decide)).1,
   (claim3_list_contract ⟨[⟨"u1", "e", [], true, 0⟩], [], [], [⟨1, "u1", ['h'], 5⟩], 2⟩
      2 (by decide)).2.2.2.2.2.1⟩

/-- C10: the `after` query parameter is total: absent it defaults to `0`,
and a nonempty non-numeric value parses to `NaN`, against which every
`created_at >` comparison is false, so the handler answers `ok` with an
empty message list instead of an error. -/
theorem claim10_after_totality (st : Store) :
    getMessages st none = ⟨true, listAfter st (some 0)⟩ ∧
    (∀ s : Str, s ≠ [] → parseIntJs s = none →
      getMessages st (some s) = ⟨true, []⟩) := by
  refine ⟨rfl, ?_⟩
  intro s hs hparse
  show (⟨true, listAfter st (if s = [] then some 0 else parseIntJs s)⟩ : MsgsResp) =
    ⟨true, []⟩
  rw [if_neg hs, hparse, listAfter_nan]

/-- Witness for C10 at the parameter string "abc". -/
theorem claim10_witness :
    getMessages ⟨[⟨"u1", "e", [], true, 0⟩], [], [], [⟨1, "u1", ['h'], 5⟩], 2⟩ none =
      ⟨true, listAfter ⟨[⟨"u1", "e", [], true, 0⟩], [], [], [⟨1, "u1", ['h'], 5⟩], 2⟩
        (some 0)⟩ ∧
    getMessages ⟨[⟨"u1", "e", [], true, 0⟩], [], [], [⟨1, "u1", ['h'], 5⟩], 2⟩
      (some ['a', 'b', 'c']) = ⟨true, []⟩ :=
  ⟨(claim10_after_totality
      ⟨[⟨"u1", "e", [], true, 0⟩], [], [], [⟨1, "u1", ['h'], 5⟩], 2⟩).1,
   (claim10_after_totality
      ⟨[⟨"u1", "e", [], true, 0⟩], [], [], [⟨1, "u1", ['h'], 5⟩], 2⟩).2
     ['a', 'b', 'c'] (by decide) (by decide)⟩
